import Mathlib

/-!
Verification of `signalmethods` (src/signalmethods/__init__.py).

The module adapts a Django `Signal` so that it can be used as an instance
method (`SignalMethod.__get__`), and groups handler callables into a
`SignalHandlingRule` that registers a single fan-out receiver with the
dispatch object and replays each broadcast to its handlers.

Python dicts with string keys are embedded as lookup functions
`String → Option α`; dict mutation (`d[k] = v`, `d.pop(k)`) becomes
functional update.  Raising is embedded as `Except Err`.  Values carried by
the broadcast are an arbitrary type `α` (the code never inspects them).
-/

set_option autoImplicit false

namespace SignalMethods

/-- Runtime failures of the embedded Python code: `IndexError` from list
subscripts, `KeyError` from `dict.pop`, and the two `TypeError`s raised in
`SignalHandlingRule.__init__` (missing instance-argument name; `*args`
declared). -/
inductive Err where
  | indexError : Err
  | keyError (key : String) : Err
  | typeErrorMissingArg (argName : String) : Err
  | typeErrorVarargs : Err
  deriving DecidableEq

/-- A Python dict with string keys, embedded as its lookup function. -/
def Dict (α : Type) : Type := String → Option α

/-- The empty dict. -/
def Dict.empty {α : Type} : Dict α := fun _ => none

/-- `d[k] = v`. -/
def Dict.insert {α : Type} (d : Dict α) (k : String) (v : α) : Dict α :=
  fun q => if q = k then some v else d q

/-- Removal of a key, the state effect of a successful `d.pop(k)`. -/
def Dict.erase {α : Type} (d : Dict α) (k : String) : Dict α :=
  fun q => if q = k then none else d q

/-! ## SignalMethod.__get__

`unbound_send(self_arg, *args, **kwargs)` writes
`kwargs[providing_args[0]] = self_arg`, then
`kwargs[providing_args[index+1]] = arg` for each positional argument, and
calls `signal_method.send(sender=type, _kwargs=kwargs)`. -/

/-- The `for index, arg in enumerate(args)` loop of `unbound_send`; `i` is
the enumerate index of the head of the remaining argument list.  A read of
`providing_args[index+1]` past the end is a Python `IndexError`. -/
def assignPositional {α : Type} (providing_args : List String) :
    Nat → List α → Dict α → Except Err (Dict α)
  | _, [], d => .ok d
  | i, a :: rest, d =>
    match providing_args.get? (i + 1) with
    | none => .error .indexError
    | some k => assignPositional providing_args (i + 1) rest (d.insert k a)

/-- What `Signal.send` receives from `unbound_send`: the owning class
(`sender=type`, classes are embedded as `Nat` identities) and the keyword
bundle passed as the single keyword argument `_kwargs`. -/
structure Broadcast (α : Type) where
  sender : Nat
  payload : Dict α

/-- `SignalMethod.__get__`'s `unbound_send`, for an event declared with
`providing_args`, accessed through class `ty`, on instance `self_arg`,
called with positional `args` and keyword `kwargs`. -/
def unbound_send {α : Type} (providing_args : List String) (ty : Nat)
    (self_arg : α) (args : List α) (kwargs : Dict α) :
    Except Err (Broadcast α) :=
  match providing_args.get? 0 with
  | none => .error .indexError
  | some k0 =>
    match assignPositional providing_args 0 args (kwargs.insert k0 self_arg) with
    | .error e => .error e
    | .ok d => .ok ⟨ty, d⟩

/-- Following the spec's words (for comparison with `unbound_send`): the
literal mapping `{S[0]: instance, S[1]: a1, ..., S[n]: an}`, built
left-to-right exactly as a Python dict display would be. -/
def specPositional {α : Type} (providing_args : List String) (instanceArg : α)
    (args : List α) : Dict α :=
  match providing_args with
  | [] => Dict.empty
  | s0 :: srest =>
    ((s0, instanceArg) :: srest.zip args).foldl
      (fun d kv => d.insert kv.1 kv.2) Dict.empty

/-- Following the spec's words: the positional mapping with the keyword
arguments supplied at the call merged directly into it (a key named by the
instance slot or by a positional argument keeps its positional value). -/
def specMapping {α : Type} (providing_args : List String) (instanceArg : α)
    (args : List α) (kwargs : Dict α) : Dict α :=
  fun q =>
    match specPositional providing_args instanceArg args q with
    | some v => some v
    | none => kwargs q

/-! ## SignalHandlingRule.__init__

Per receiver: `getargspec` yields the declared parameter names, whether a
`*args` parameter exists and whether a `**kwargs` parameter exists.  An
unbound method (a `MethodType` with `im_self is None`) must have its first
parameter name among the signal's `providing_args`; a bound method drops
its first (already supplied) parameter; a plain function is taken as is.
Any receiver with a `*args` parameter is rejected. -/

/-- How a receiver callable presents itself to Python 2's introspection:
a plain function, an unbound method (`im_self is None`), or a bound
method. -/
inductive ReceiverKind where
  | function : ReceiverKind
  | unboundMethod : ReceiverKind
  | boundMethod : ReceiverKind
  deriving DecidableEq

/-- A receiver callable as seen by `getargspec`. -/
structure Receiver where
  /-- `getargspec(receiver).args`: the declared parameter names. -/
  args : List String
  /-- whether a variable-length positional parameter is declared -/
  varargs : Bool
  /-- whether an arbitrary-keyword parameter is declared -/
  keywords : Bool
  kind : ReceiverKind
  deriving DecidableEq

/-- The body of the `for receiver in receivers` loop of
`SignalHandlingRule.__init__`: the argument-extraction plan
`(arg_keys, bool(arg_spec.keywords))` stored in `rule.arg_rules`, or the
raised error.  `list[0]` and `list.pop(0)` on an empty list are Python
`IndexError`s. -/
def deriveArgRule (provided_args : List String) (r : Receiver) :
    Except Err (List String × Bool) :=
  match r.kind with
  | .unboundMethod =>
    match r.args with
    | [] => .error .indexError
    | k0 :: _ =>
      if k0 ∈ provided_args then
        if r.varargs then .error .typeErrorVarargs else .ok (r.args, r.keywords)
      else .error (.typeErrorMissingArg k0)
  | .boundMethod =>
    match r.args with
    | [] => .error .indexError
    | _ :: rest =>
      if r.varargs then .error .typeErrorVarargs else .ok (rest, r.keywords)
  | .function =>
    if r.varargs then .error .typeErrorVarargs else .ok (r.args, r.keywords)

/-- `SignalHandlingRule.__init__`'s loop over the receiver list, in order;
the first raise aborts construction. -/
def deriveArgRules (provided_args : List String) :
    List Receiver → Except Err (List (List String × Bool))
  | [] => .ok []
  | r :: rest =>
    match deriveArgRule provided_args r with
    | .error e => .error e
    | .ok a =>
      match deriveArgRules provided_args rest with
      | .error e => .error e
      | .ok rs => .ok (a :: rs)

/-! ## SignalHandlingRule._send_to_receiver / _send_to_receivers -/

/-- The call a handler finally receives: an optional first positional
argument and the keyword arguments. -/
structure HCall (α : Type) where
  firstArg : Option α
  kwargs : Dict α

/-- The `for arg_key in arg_keys[1:]` extraction loop of
`_send_to_receiver`: each listed key present in `sent_kwargs` is popped
into the call's keyword dict; absent keys are silently skipped.  Returns
`(kwargs, sent_kwargs)` after the loop. -/
def extractArgs {α : Type} :
    List String → Dict α → Dict α → Dict α × Dict α
  | [], sent, acc => (acc, sent)
  | k :: rest, sent, acc =>
    match sent k with
    | none => extractArgs rest sent acc
    | some v => extractArgs rest (sent.erase k) (acc.insert k v)

/-- `SignalHandlingRule._send_to_receiver` for a receiver whose stored
plan is `(arg_keys, use_kwargs)`, applied to this receiver's copy
`sent_kwargs` of the broadcast bundle.  When `use_kwargs` holds, `kwargs`
is the very `sent_kwargs` object, so the later
`sent_kwargs.pop(arg_keys[0])` also removes the instance slot from the
keyword arguments of the call. -/
def send_to_receiver {α : Type} (arg_keys : List String) (use_kwargs : Bool)
    (sent_kwargs : Dict α) : Except Err (HCall α) :=
  if use_kwargs then
    match arg_keys with
    | [] => .ok ⟨none, sent_kwargs⟩
    | k0 :: _ =>
      match sent_kwargs k0 with
      | none => .error (.keyError k0)
      | some v => .ok ⟨some v, sent_kwargs.erase k0⟩
  else
    match arg_keys with
    | [] => .ok ⟨none, Dict.empty⟩
    | k0 :: rest =>
      match extractArgs rest sent_kwargs Dict.empty with
      | (acc, remaining) =>
        match remaining k0 with
        | none => .error (.keyError k0)
        | some v => .ok ⟨some v, acc⟩

/-- `SignalHandlingRule._send_to_receivers`: each receiver, in the order
the rules were derived (the order receivers were listed), is sent its own
fresh copy `dict(_kwargs)` of the broadcast bundle; an exception from one
receiver aborts the remaining ones. -/
def send_to_receivers {α : Type} :
    List (List String × Bool) → Dict α → Except Err (List (HCall α))
  | [], _ => .ok []
  | rule :: rest, payload =>
    match send_to_receiver rule.1 rule.2 payload with
    | .error e => .error e
    | .ok c =>
      match send_to_receivers rest payload with
      | .error e => .error e
      | .ok cs => .ok (c :: cs)

/-! ## The dispatch object and the rule lifecycle

Modelled from the spec: the external dispatch object (Django's signal
registry) is not part of this repository.  The spec describes it as a
sender-keyed registry with `connect` / `disconnect` / broadcast, where the
rule's optional identifier is "used as a de-duplication key for
attach/detach" (it is passed as `dispatch_uid`); without an identifier the
receiver's own identity keys the entry.  `connect` with an already present
lookup key adds nothing; `disconnect` removes the entry with the lookup
key and never raises; a broadcast for a sender reaches exactly the
registered receivers whose key names that sender. -/

/-- Modelled from the spec: the de-duplication part of a registry lookup
key — the `dispatch_uid` when one was given, otherwise the identity of the
connected receiver callable. -/
inductive UidKey where
  | uid (u : String) : UidKey
  | recvId (r : Nat) : UidKey
  deriving DecidableEq

/-- Modelled from the spec: a registry lookup key, pairing the
de-duplication key with the sender class's identity. -/
structure LookupKey where
  u : UidKey
  senderId : Nat
  deriving DecidableEq

/-- Modelled from the spec: the dispatch object's registry, in attachment
order; each entry pairs a lookup key with the identity of the connected
fan-out receiver. -/
abbrev Registry : Type := List (LookupKey × Nat)

/-- Modelled from the spec: `Signal.connect(receiver, sender,
dispatch_uid)` — a no-op when the lookup key is already present, otherwise
appended at the end. -/
def connect (key : LookupKey) (rid : Nat) (reg : Registry) : Registry :=
  if reg.any (fun e => decide (e.1 = key)) then reg else reg ++ [(key, rid)]

/-- Modelled from the spec: `Signal.disconnect(receiver, sender,
dispatch_uid)` — drops the entry with this lookup key; total (never
raises). -/
def disconnect (key : LookupKey) (reg : Registry) : Registry :=
  reg.filter (fun e => decide (e.1 ≠ key))

/-- Modelled from the spec: the fan-out receivers a broadcast with this
sender reaches, in attachment order. -/
def receiversFor (senderId : Nat) (reg : Registry) : List Nat :=
  (reg.filter (fun e => decide (e.1.senderId = senderId))).map (fun e => e.2)

/-- The lookup key `SignalHandlingRule.start` / `stop` use: the rule id as
`dispatch_uid` when given, otherwise the identity of the rule's
`_send_to_receivers` bound method. -/
def mkKey (rule_id : Option String) (rid : Nat) (senderId : Nat) : LookupKey :=
  ⟨match rule_id with | some u => .uid u | none => .recvId rid, senderId⟩

/-- A constructed `SignalHandlingRule`: the sender class it filters to,
the identity of its `_send_to_receivers` closure, its lookup key, and the
derived argument-extraction plans in receiver order. -/
structure RuleData where
  senderId : Nat
  receiverId : Nat
  key : LookupKey
  argRules : List (List String × Bool)
  deriving DecidableEq

/-- `SignalHandlingRule.start`: connect the rule's fan-out receiver for
its sender class under its lookup key. -/
def startRule (r : RuleData) (reg : Registry) : Registry :=
  connect r.key r.receiverId reg

/-- `SignalHandlingRule.stop`: disconnect the rule's fan-out receiver. -/
def stopRule (r : RuleData) (reg : Registry) : Registry :=
  disconnect r.key reg

/-- `when(cause, rule_id)(*effects)`: construct the `SignalHandlingRule`
(which may raise) and, on success, `rule.start()` before returning it.
`rid` is the fresh identity of the new rule's `_send_to_receivers`
closure. -/
def when (provided_args : List String) (senderId : Nat)
    (receivers : List Receiver) (rule_id : Option String) (rid : Nat)
    (reg : Registry) : Except Err (RuleData × Registry) :=
  match deriveArgRules provided_args receivers with
  | .error e => .error e
  | .ok ars =>
    let rule : RuleData := ⟨senderId, rid, mkKey rule_id rid senderId, ars⟩
    .ok (rule, startRule rule reg)

/-! ## Fan-out theorems (C3, C9, C10) -/

/-- Unfolding of `send_to_receiver` for a handler that does not accept
arbitrary keyword arguments and has a non-empty parameter list. -/
theorem send_to_receiver_false_cons {α : Type} (k0 : String)
    (rest : List String) (sent : Dict α) :
    send_to_receiver (k0 :: rest) false sent =
      match (extractArgs rest sent Dict.empty).2 k0 with
      | none => Except.error (Err.keyError k0)
      | some v => Except.ok ⟨some v, (extractArgs rest sent Dict.empty).1⟩ := rfl

/-- Unfolding of `send_to_receiver` for a handler that accepts arbitrary
keyword arguments and has a non-empty parameter list. -/
theorem send_to_receiver_true_cons {α : Type} (k0 : String)
    (rest : List String) (sent : Dict α) :
    send_to_receiver (k0 :: rest) true sent =
      match sent k0 with
      | none => Except.error (Err.keyError k0)
      | some v => Except.ok ⟨some v, sent.erase k0⟩ := rfl

/-- The extraction loop never makes an absent key appear. -/
theorem extractArgs_preserves_none {α : Type} (keys : List String)
    (sent acc : Dict α) (k0 : String) (h : sent k0 = none) :
    (extractArgs keys sent acc).2 k0 = none := by
  induction keys generalizing sent acc with
  | nil => exact h
  | cons k rest ih =>
    unfold extractArgs
    cases hv : sent k with
    | none => exact ih sent acc h
    | some v =>
      apply ih
      unfold Dict.erase
      by_cases hq : k0 = k <;> simp [hq, h]

/-- The extraction loop leaves keys it does not list untouched. -/
theorem extractArgs_preserves_not_mem {α : Type} (keys : List String)
    (sent acc : Dict α) (k0 : String) (h : k0 ∉ keys) :
    (extractArgs keys sent acc).2 k0 = sent k0 := by
  induction keys generalizing sent acc with
  | nil => rfl
  | cons k rest ih =>
    have hk : k0 ≠ k := fun he => h (he ▸ List.mem_cons_self k rest)
    have hrest : k0 ∉ rest := fun hm => h (List.mem_cons_of_mem k hm)
    unfold extractArgs
    cases hv : sent k with
    | none => exact ih sent acc hrest
    | some v =>
      rw [ih _ _ hrest]
      unfold Dict.erase
      simp [hk]

/-- C3: the fan-out runs the handlers strictly sequentially in the order
their plans were derived (the order they were listed at construction), and
the call each handler receives is computed from the pristine broadcast
bundle `payload` and that handler's own plan alone — no handler's
extraction mutates or shares state with another's, because every receiver
gets its own fresh `dict(_kwargs)` copy. -/
theorem sendToReceivers_sequential_fresh {α : Type}
    (rules : List (List String × Bool)) (payload : Dict α)
    (calls : List (HCall α))
    (h : send_to_receivers rules payload = Except.ok calls) :
    calls.length = rules.length ∧
      ∀ (i : Nat) (rule : List String × Bool) (c : HCall α),
        rules.get? i = some rule → calls.get? i = some c →
          send_to_receiver rule.1 rule.2 payload = Except.ok c := by
  induction rules generalizing calls with
  | nil =>
    unfold send_to_receivers at h
    injection h with h2
    subst h2
    exact ⟨rfl, fun i rule c h1 _ => by cases h1⟩
  | cons a l ih =>
    unfold send_to_receivers at h
    cases h1 : send_to_receiver a.1 a.2 payload with
    | error e => rw [h1] at h; cases h
    | ok c0 =>
      rw [h1] at h
      cases h2 : send_to_receivers l payload with
      | error e => rw [h2] at h; cases h
      | ok cs =>
        rw [h2] at h
        injection h with h3
        subst h3
        obtain ⟨hlen, hind⟩ := ih cs h2
        refine ⟨by simp [hlen], ?_⟩
        intro i rule c hr hc
        cases i with
        | zero =>
          injection hr with hr2
          injection hc with hc2
          subst hr2; subst hc2
          exact h1
        | succ j => exact hind j rule c hr hc

/-- C9: with a non-empty parameter list and no arbitrary-keyword
acceptance, a broadcast bundle missing the instance-slot name makes the
fan-out itself raise `KeyError` at the `sent_kwargs.pop(arg_keys[0])`,
whereas absent non-instance parameter names are silently skipped (the same
call with the instance slot supplied succeeds). -/
theorem fanout_missing_instance_slot {α : Type} (k0 : String)
    (rest : List String) (sent : Dict α) (h1 : sent k0 = none)
    (h2 : k0 ∉ rest) :
    send_to_receiver (k0 :: rest) false sent =
        Except.error (Err.keyError k0) ∧
      ∀ v : α, ∃ c : HCall α,
        send_to_receiver (k0 :: rest) false (sent.insert k0 v) =
          Except.ok c := by
  constructor
  · rw [send_to_receiver_false_cons,
      extractArgs_preserves_none rest sent Dict.empty k0 h1]
  · intro v
    have hv : (sent.insert k0 v) k0 = some v := by
      unfold Dict.insert; simp
    refine ⟨⟨some v, (extractArgs rest (sent.insert k0 v) Dict.empty).1⟩, ?_⟩
    rw [send_to_receiver_false_cons,
      extractArgs_preserves_not_mem rest (sent.insert k0 v) Dict.empty k0 h2,
      hv]

/-- C10: for a handler that accepts arbitrary keyword arguments and has a
non-empty parameter list, `kwargs` aliases the receiver's copy of the
bundle, so popping the instance slot removes it from the keyword
arguments of the call: the handler gets the instance-slot value exactly
once, positionally, and never also as a keyword. -/
theorem fanout_kwargs_instance_once {α : Type} (k0 : String)
    (rest : List String) (sent : Dict α) (v : α) (h : sent k0 = some v) :
    send_to_receiver (k0 :: rest) true sent =
        Except.ok ⟨some v, sent.erase k0⟩ ∧
      (sent.erase k0) k0 = none := by
  constructor
  · rw [send_to_receiver_true_cons, h]
  · unfold Dict.erase; simp

/-- C3 witness. -/
theorem sendToReceivers_sequential_fresh_witness :
    ([⟨some 1, Dict.empty.insert "o" 2⟩,
        ⟨some 1, Dict.empty.insert "o" 2⟩] : List (HCall Nat)).length =
      [((["s", "o"], false) : List String × Bool), (["s", "o"], false)].length ∧
      ∀ (i : Nat) (rule : List String × Bool) (c : HCall Nat),
        [((["s", "o"], false) : List String × Bool),
            (["s", "o"], false)].get? i = some rule →
        ([⟨some 1, Dict.empty.insert "o" 2⟩,
            ⟨some 1, Dict.empty.insert "o" 2⟩] : List (HCall Nat)).get? i =
          some c →
        send_to_receiver rule.1 rule.2
            ((Dict.empty.insert "s" (1 : Nat)).insert "o" 2) = Except.ok c :=
  sendToReceivers_sequential_fresh
    [(["s", "o"], false), (["s", "o"], false)]
    ((Dict.empty.insert "s" (1 : Nat)).insert "o" 2)
    [⟨some 1, Dict.empty.insert "o" 2⟩, ⟨some 1, Dict.empty.insert "o" 2⟩] rfl

/-- C9 witness. -/
theorem fanout_missing_instance_slot_witness :
    ((Dict.empty.insert "o" (2 : Nat)) "s" = none ∧ "s" ∉ ["o"]) ∧
      (send_to_receiver ["s", "o"] false (Dict.empty.insert "o" (2 : Nat)) =
          Except.error (Err.keyError "s") ∧
        ∀ v : Nat, ∃ c : HCall Nat,
          send_to_receiver ["s", "o"] false
              ((Dict.empty.insert "o" (2 : Nat)).insert "s" v) =
            Except.ok c) :=
  ⟨⟨rfl, by decide⟩,
    fanout_missing_instance_slot "s" ["o"] (Dict.empty.insert "o" 2) rfl
      (by decide)⟩

/-- C10 witness. -/
theorem fanout_kwargs_instance_once_witness :
    (Dict.empty.insert "s" (7 : Nat)) "s" = some 7 ∧
      (send_to_receiver ["s"] true (Dict.empty.insert "s" (7 : Nat)) =
          Except.ok ⟨some 7, (Dict.empty.insert "s" (7 : Nat)).erase "s"⟩ ∧
        ((Dict.empty.insert "s" (7 : Nat)).erase "s") "s" = none) :=
  ⟨rfl, fanout_kwargs_instance_once "s" [] (Dict.empty.insert "s" 7) 7 rfl⟩

/-! ## Construction theorems (C2, C5) -/

/-- A receiver declaring a variable-length positional parameter never
yields a plan: every path of the per-receiver derivation raises. -/
theorem deriveArgRule_varargs_error (p : List String) (r : Receiver)
    (h : r.varargs = true) : ∃ e, deriveArgRule p r = Except.error e := by
  rcases r with ⟨args2, va, kw, kind⟩
  simp only at h
  subst h
  cases kind <;> cases args2 <;> simp only [deriveArgRule, if_true] <;>
    first
      | exact ⟨_, rfl⟩
      | (split
         · exact ⟨_, rfl⟩
         · exact ⟨_, rfl⟩)

/-- An unbound-method receiver whose first declared parameter name is not
among the providing args raises the missing-argument `TypeError`. -/
theorem deriveArgRule_unbound_missing (p : List String) (r : Receiver)
    (k0 : String) (hkind : r.kind = ReceiverKind.unboundMethod)
    (hhead : r.args.head? = some k0) (hmem : k0 ∉ p) :
    deriveArgRule p r = Except.error (Err.typeErrorMissingArg k0) := by
  rcases r with ⟨args2, va, kw, kind⟩
  simp only at hkind hhead
  subst hkind
  cases args2 with
  | nil => cases hhead
  | cons a rest =>
    injection hhead with hhead2
    subst hhead2
    simp [deriveArgRule, hmem]

/-- If any listed receiver's individual derivation raises, the whole
construction loop raises (the first failing receiver's error, or an
earlier one's). -/
theorem deriveArgRules_error_of_receiver (p : List String)
    (receivers : List Receiver) (r : Receiver) (hr : r ∈ receivers)
    (e : Err) (he : deriveArgRule p r = Except.error e) :
    ∃ e2, deriveArgRules p receivers = Except.error e2 := by
  induction receivers with
  | nil => cases hr
  | cons a l ih =>
    cases hr with
    | head => exact ⟨e, by simp [deriveArgRules, he]⟩
    | tail _ hmem =>
      cases h1 : deriveArgRule p a with
      | error e1 => exact ⟨e1, by simp [deriveArgRules, h1]⟩
      | ok a1 =>
        obtain ⟨e2, he2⟩ := ih hmem
        exact ⟨e2, by simp [deriveArgRules, h1, he2]⟩

/-- C5: constructing a handler group with any receiver that declares a
variable-length positional parameter raises a configuration error in
`SignalHandlingRule.__init__`. -/
theorem varargs_receiver_raises (provided_args : List String)
    (receivers : List Receiver) (r : Receiver) (hr : r ∈ receivers)
    (h : r.varargs = true) :
    ∃ e, deriveArgRules provided_args receivers = Except.error e := by
  obtain ⟨e, he⟩ := deriveArgRule_varargs_error provided_args r h
  exact deriveArgRules_error_of_receiver provided_args receivers r hr e he

/-- C5 witness. -/
theorem varargs_receiver_raises_witness :
    ((⟨["s"], true, false, ReceiverKind.function⟩ : Receiver) ∈
        [(⟨["s"], true, false, ReceiverKind.function⟩ : Receiver)] ∧
      (⟨["s"], true, false, ReceiverKind.function⟩ : Receiver).varargs = true) ∧
      ∃ e, deriveArgRules ["s"]
          [⟨["s"], true, false, ReceiverKind.function⟩] = Except.error e :=
  ⟨⟨List.mem_singleton.mpr rfl, rfl⟩,
    varargs_receiver_raises ["s"] _ _ (List.mem_singleton.mpr rfl) rfl⟩

/-- C2 counterexample: a plain function (not bound to any instance) whose
first declared parameter name does not occur in the event's declared
sequence is accepted without error — the name check in
`SignalHandlingRule.__init__` runs only for receivers that are unbound
methods, so construction succeeds here. -/
theorem function_receiver_unchecked :
    deriveArgRules ["spaceship", "asteroid"]
        [⟨["foo"], false, false, ReceiverKind.function⟩] =
      Except.ok [(["foo"], false)] := rfl

/-- C2 (amended): if any receiver that is an unbound method has a first
declared parameter name not occurring in the event's declared sequence,
`when` raises a configuration error during construction, before any
registration with the dispatch object (the registry is never touched: the
error is returned in place of a rule/registry pair). -/
theorem when_unbound_missing_name_errors (provided_args : List String)
    (senderId : Nat) (receivers : List Receiver) (rule_id : Option String)
    (rid : Nat) (reg : Registry) (r : Receiver) (k0 : String)
    (hr : r ∈ receivers) (hkind : r.kind = ReceiverKind.unboundMethod)
    (hhead : r.args.head? = some k0) (hmem : k0 ∉ provided_args) :
    ∃ e, when provided_args senderId receivers rule_id rid reg =
      Except.error e := by
  obtain ⟨e, he⟩ := deriveArgRules_error_of_receiver provided_args receivers
    r hr _ (deriveArgRule_unbound_missing provided_args r k0 hkind hhead hmem)
  exact ⟨e, by simp [when, he]⟩

/-- C2 (amended) witness. -/
theorem when_unbound_missing_name_errors_witness :
    ((⟨["bad"], false, false, ReceiverKind.unboundMethod⟩ : Receiver) ∈
        [(⟨["bad"], false, false, ReceiverKind.unboundMethod⟩ : Receiver)] ∧
      "bad" ∉ ["s"]) ∧
      ∃ e, when ["s"] 0 [⟨["bad"], false, false, ReceiverKind.unboundMethod⟩]
          none 1 [] = Except.error e :=
  ⟨⟨List.mem_singleton.mpr rfl, by decide⟩,
    when_unbound_missing_name_errors ["s"] 0 _ none 1 [] _ "bad"
      (List.mem_singleton.mpr rfl) rfl rfl (by decide)⟩

/-! ## Lifecycle theorems (C4, C6, C7) -/

/-- C4: for a rule whose fan-out receiver is fresh (not registered under
any key), stop after start removes the receiver, so a subsequent
broadcast for the rule's sender class reaches none of the group's
handlers. -/
theorem stop_removes_receiver (r : RuleData) (reg : Registry)
    (hfresh : ∀ k : LookupKey, (k, r.receiverId) ∉ reg) :
    r.receiverId ∉ receiversFor r.senderId (stopRule r (startRule r reg)) := by
  intro hmem
  unfold receiversFor at hmem
  obtain ⟨e, he1, he2⟩ := List.mem_map.mp hmem
  have he3 : e ∈ stopRule r (startRule r reg) := (List.mem_filter.mp he1).1
  unfold stopRule disconnect at he3
  have he4 := List.mem_filter.mp he3
  have hkey : e.1 ≠ r.key := of_decide_eq_true he4.2
  have he5 : e ∈ startRule r reg := he4.1
  have hintro : e ∈ reg → False := by
    intro hin
    apply hfresh e.1
    rw [← he2]
    have heta : (e.1, e.2) = e := rfl
    rw [heta]
    exact hin
  unfold startRule connect at he5
  by_cases hc : reg.any (fun e2 => decide (e2.1 = r.key)) = true
  · rw [if_pos hc] at he5
    exact hintro he5
  · rw [if_neg hc] at he5
    cases List.mem_append.mp he5 with
    | inl hin => exact hintro hin
    | inr hsing =>
      have : e = (r.key, r.receiverId) := List.mem_singleton.mp hsing
      exact hkey (by rw [this])

/-- C4 witness. -/
theorem stop_removes_receiver_witness :
    (∀ k : LookupKey,
        (k, (⟨0, 5, ⟨UidKey.uid "x", 0⟩, []⟩ : RuleData).receiverId) ∉
          ([] : Registry)) ∧
      (⟨0, 5, ⟨UidKey.uid "x", 0⟩, []⟩ : RuleData).receiverId ∉
        receiversFor 0 (stopRule ⟨0, 5, ⟨UidKey.uid "x", 0⟩, []⟩
          (startRule ⟨0, 5, ⟨UidKey.uid "x", 0⟩, []⟩ [])) :=
  ⟨fun _ => List.not_mem_nil _,
    stop_removes_receiver ⟨0, 5, ⟨UidKey.uid "x", 0⟩, []⟩ []
      (fun _ => List.not_mem_nil _)⟩

/-- C6 counterexample: configuring with an identifier that is already in
use as a de-duplication key for the same sender succeeds (no error), yet
the dispatch object's de-duplication suppresses the attach: the returned
registry is unchanged and the new rule's fan-out receiver (identity 1) is
not among the receivers a broadcast for sender 0 reaches. -/
theorem when_duplicate_uid_not_attached :
    when ["s"] 0 [] (some "r") 1 [(⟨UidKey.uid "r", 0⟩, 99)] =
        Except.ok (⟨0, 1, ⟨UidKey.uid "r", 0⟩, []⟩,
          [(⟨UidKey.uid "r", 0⟩, 99)]) ∧
      1 ∉ receiversFor 0 [(⟨UidKey.uid "r", 0⟩, 99)] := by
  constructor
  · rfl
  · decide

/-- C6 (amended): a successful `when` whose lookup key (identifier plus
sender, or the fresh receiver identity when no identifier is given) is not
already present in the registry returns a rule that is attached: its
fan-out receiver is among the receivers a broadcast for the rule's sender
class reaches. -/
theorem when_attaches (provided_args : List String) (senderId : Nat)
    (receivers : List Receiver) (rule_id : Option String) (rid : Nat)
    (reg : Registry) (rule : RuleData) (reg2 : Registry)
    (hfresh : ∀ e ∈ reg, e.1 ≠ mkKey rule_id rid senderId)
    (h : when provided_args senderId receivers rule_id rid reg =
      Except.ok (rule, reg2)) :
    rule.receiverId ∈ receiversFor rule.senderId reg2 := by
  unfold when at h
  cases hd : deriveArgRules provided_args receivers with
  | error e => rw [hd] at h; cases h
  | ok ars =>
    rw [hd] at h
    injection h with h2
    injection h2 with h3 h4
    subst h3
    subst h4
    have hany : reg.any (fun e2 => decide (e2.1 = mkKey rule_id rid senderId)) ≠ true := by
      intro hc
      obtain ⟨x, hx, hpx⟩ := List.any_eq_true.mp hc
      exact hfresh x hx (of_decide_eq_true hpx)
    unfold receiversFor
    apply List.mem_map.mpr
    refine ⟨(mkKey rule_id rid senderId, rid), ?_, rfl⟩
    apply List.mem_filter.mpr
    constructor
    · show (mkKey rule_id rid senderId, rid) ∈ startRule _ reg
      unfold startRule connect
      rw [if_neg hany]
      exact List.mem_append.mpr (Or.inr (List.mem_singleton.mpr rfl))
    · exact decide_eq_true (by unfold mkKey; rfl)

/-- C6 (amended) witness. -/
theorem when_attaches_witness :
    (∀ e ∈ ([] : Registry), e.1 ≠ mkKey (some "r") 1 0) ∧
      (⟨0, 1, ⟨UidKey.uid "r", 0⟩, []⟩ : RuleData).receiverId ∈
        receiversFor (⟨0, 1, ⟨UidKey.uid "r", 0⟩, []⟩ : RuleData).senderId
          [(⟨UidKey.uid "r", 0⟩, 1)] :=
  ⟨fun e he => absurd he (List.not_mem_nil e),
    when_attaches ["s"] 0 [] (some "r") 1 [] _ _
      (fun e he => absurd he (List.not_mem_nil e)) rfl⟩

/-- C7: stopping twice in succession raises nothing (`stopRule` is total)
and is idempotent — the second stop changes nothing, and afterwards no
registry entry carries the rule's lookup key, i.e. the group is
detached. -/
theorem stop_idempotent_detached (r : RuleData) (reg : Registry) :
    stopRule r (stopRule r reg) = stopRule r reg ∧
      ∀ e ∈ stopRule r (stopRule r reg), e.1 ≠ r.key := by
  constructor
  · unfold stopRule disconnect
    apply List.filter_eq_self.mpr
    intro a ha
    exact (List.mem_filter.mp ha).2
  · intro e he
    unfold stopRule disconnect at he
    exact of_decide_eq_true (List.mem_filter.mp he).2

/-! ## Binding theorems (C1, C8) -/

/-- Unfolding of the positional loop at an empty argument list. -/
theorem assignPositional_nil {α : Type} (providing_args : List String)
    (i : Nat) (d : Dict α) :
    assignPositional providing_args i ([] : List α) d = Except.ok d := rfl

/-- Unfolding of the positional loop at a non-empty argument list. -/
theorem assignPositional_cons {α : Type} (providing_args : List String)
    (i : Nat) (a : α) (rest : List α) (d : Dict α) :
    assignPositional providing_args i (a :: rest) d =
      match providing_args.get? (i + 1) with
      | none => Except.error Err.indexError
      | some k => assignPositional providing_args (i + 1) rest (d.insert k a) :=
  rfl

/-- With enough declared names, the positional loop succeeds and is the
fold of the `(name, argument)` assignments over the starting dict. -/
theorem assignPositional_ok {α : Type} (providing_args : List String)
    (args : List α) (i : Nat) (d : Dict α)
    (h : i + args.length < providing_args.length) :
    assignPositional providing_args i args d =
      Except.ok (((providing_args.drop (i + 1)).zip args).foldl
        (fun d2 kv => d2.insert kv.1 kv.2) d) := by
  induction args generalizing i d with
  | nil => rw [List.zip_nil_right]; rfl
  | cons a rest ih =>
    simp only [List.length_cons] at h
    have hi : i + 1 < providing_args.length := by omega
    rw [assignPositional_cons, List.get?_eq_get hi]
    show assignPositional providing_args (i + 1) rest
        (d.insert (providing_args.get ⟨i + 1, hi⟩) a) = _
    rw [ih (i + 1) (d.insert (providing_args.get ⟨i + 1, hi⟩) a) (by omega)]
    have hdrop : providing_args.drop (i + 1) =
        providing_args.get ⟨i + 1, hi⟩ :: providing_args.drop (i + 2) := by
      rw [List.drop_eq_getElem_cons hi]; rfl
    rw [hdrop]
    rfl

/-- Folding key-value assignments over a starting dict looks a key up in
the assignments first and falls back to the starting dict. -/
theorem foldl_insert_overlay {α : Type} (ps : List (String × α)) (d : Dict α)
    (q : String) :
    (ps.foldl (fun d2 kv => d2.insert kv.1 kv.2) d) q =
      match (ps.foldl (fun d2 kv => d2.insert kv.1 kv.2) Dict.empty) q with
      | some v => some v
      | none => d q := by
  induction ps generalizing d with
  | nil => rfl
  | cons kv ps2 ih =>
    simp only [List.foldl_cons]
    rw [ih (d.insert kv.1 kv.2), ih (Dict.empty.insert kv.1 kv.2)]
    cases hq :
        (ps2.foldl (fun d2 kv2 => d2.insert kv2.1 kv2.2) Dict.empty) q with
    | some v => rfl
    | none =>
      unfold Dict.insert Dict.empty
      by_cases hc : q = kv.1 <;> simp [hc]

/-- C1: with fewer positional arguments than declared names, calling the
callable obtained by accessing the event through an instance broadcasts
with the owning class as sender and exactly the keyword arguments
`{S[0]: instance, S[1]: a1, ..., S[n]: an}` with the supplied keyword
arguments merged directly into that mapping (the dict writes of
`unbound_send` are performed after the supplied keywords are in place, so
a collision keeps the positional value). -/
theorem unbound_send_matches_spec {α : Type} (providing_args : List String)
    (ty : Nat) (self_arg : α) (args : List α) (kwargs : Dict α)
    (h : args.length < providing_args.length) :
    unbound_send providing_args ty self_arg args kwargs =
      Except.ok ⟨ty, specMapping providing_args self_arg args kwargs⟩ := by
  cases providing_args with
  | nil => simp at h
  | cons s0 srest =>
    simp only [List.length_cons] at h
    have heq : unbound_send (s0 :: srest) ty self_arg args kwargs =
        match assignPositional (s0 :: srest) 0 args
          (kwargs.insert s0 self_arg) with
        | .error e => .error e
        | .ok d => .ok ⟨ty, d⟩ := rfl
    rw [heq, assignPositional_ok (s0 :: srest) args 0
      (kwargs.insert s0 self_arg) (by simp only [List.length_cons]; omega)]
    have hpayload : ((((s0 :: srest).drop (0 + 1)).zip args).foldl
        (fun d2 kv => d2.insert kv.1 kv.2) (kwargs.insert s0 self_arg)) =
        specMapping (s0 :: srest) self_arg args kwargs := by
      funext q
      rw [foldl_insert_overlay]
      unfold specMapping specPositional
      simp only [List.foldl_cons]
      rw [foldl_insert_overlay (srest.zip args) (Dict.empty.insert s0 self_arg) q]
      have hd1 : (s0 :: srest).drop (0 + 1) = srest := rfl
      rw [hd1]
      cases hq : (List.foldl (fun d2 kv => d2.insert kv.1 kv.2) Dict.empty
          (srest.zip args)) q with
      | some v => rfl
      | none =>
        unfold Dict.insert Dict.empty
        by_cases hc : q = s0 <;> simp [hc]
    rw [hpayload]

/-- C1 witness. -/
theorem unbound_send_matches_spec_witness :
    [(20 : Nat)].length < ["spaceship", "asteroid"].length ∧
      unbound_send ["spaceship", "asteroid"] 7 (10 : Nat) [20]
          (Dict.empty.insert "extra" 30) =
        Except.ok ⟨7, specMapping ["spaceship", "asteroid"] 10 [20]
          (Dict.empty.insert "extra" 30)⟩ :=
  ⟨by decide, unbound_send_matches_spec ["spaceship", "asteroid"] 7 10 [20]
    (Dict.empty.insert "extra" 30) (by decide)⟩

/-- With at least as many positional arguments as declared names, the
positional loop overruns the name list and raises `IndexError`. -/
theorem assignPositional_overflow {α : Type} (providing_args : List String)
    (args : List α) (i : Nat) (d : Dict α)
    (h1 : providing_args.length ≤ i + args.length) (h2 : 0 < args.length) :
    assignPositional providing_args i args d = Except.error Err.indexError := by
  induction args generalizing i d with
  | nil => simp at h2
  | cons a rest ih =>
    simp only [List.length_cons] at h1
    rw [assignPositional_cons]
    by_cases hlt : i + 1 < providing_args.length
    · rw [List.get?_eq_get hlt]
      exact ih (i + 1) _ (by omega) (by omega)
    · rw [List.get?_eq_none.mpr (by omega)]

/-- C8: calling the bound forwarding callable with as many positional
arguments as declared names (or more) fails with the generic
`IndexError` raised while mapping positional arguments to declared names,
not with a domain-specific error. -/
theorem unbound_send_index_error {α : Type} (providing_args : List String)
    (ty : Nat) (self_arg : α) (args : List α) (kwargs : Dict α)
    (h : providing_args.length ≤ args.length) :
    unbound_send providing_args ty self_arg args kwargs =
      Except.error Err.indexError := by
  cases providing_args with
  | nil => rfl
  | cons s0 srest =>
    simp only [List.length_cons] at h
    have heq : unbound_send (s0 :: srest) ty self_arg args kwargs =
        match assignPositional (s0 :: srest) 0 args
          (kwargs.insert s0 self_arg) with
        | .error e => .error e
        | .ok d => .ok ⟨ty, d⟩ := rfl
    rw [heq, assignPositional_overflow (s0 :: srest) args 0
      (kwargs.insert s0 self_arg) (by simp only [List.length_cons]; omega)
      (by omega)]

/-- C8 witness. -/
theorem unbound_send_index_error_witness :
    ["s"].length ≤ [(1 : Nat), 2].length ∧
      unbound_send ["s"] 0 (5 : Nat) [1, 2] Dict.empty =
        Except.error Err.indexError :=
  ⟨by decide, unbound_send_index_error ["s"] 0 5 [1, 2] Dict.empty (by decide)⟩

end SignalMethods
